import Mathlib

/-!
Verification of the file-downloader core (task entities, task/download
usecases, and the worker pool), shallowly embedded from the Go source.

Conventions of the embedding:
* Go slices become `List`, Go `int`/`int64` become `Int` (or `Nat` where the
  Go value is an index/count that is provably non-negative), Go strings
  become `String`.
* `time.Now()` is passed in explicitly as an integer parameter `now`
  (Unix seconds) wherever the source reads the clock.
* `uuid.New()` is passed in explicitly as the `id : String` parameter.
* Functions that in Go mutate a task through a pointer are embedded as
  functions returning the updated task; the sequential call structure of
  the source preserves the aliasing behaviour (`DownloadFile` re-reads the
  same task object that `ProcessTask` holds, so the updated task is threaded
  through).
* Fallible I/O collaborators (HTTP client, filesystem, repositories) are
  modelled by explicit environment records whose fields say how each call
  would answer; a Go run-time panic is a distinct outcome constructor.
-/

namespace FileDownloader

/-- `entities.TaskStatus`: the four status constants of the Go enum. -/
inductive TaskStatus where
  | new
  | processing
  | completed
  | failed
deriving DecidableEq, Repr

/-- `entities.File`: one URL-to-destination download record.  The `status`
field is a plain string in the source (`"pending"`, `"downloading"`,
`"completed"`, `"failed"`), kept as `String` here. -/
structure File where
  url : String
  path : String
  size : Int
  status : String
  error : String
deriving DecidableEq, Repr

/-- The zero value of the Go `File` struct (what `make([]File, n)` fills in). -/
def File.zero : File :=
  { url := "", path := "", size := 0, status := "", error := "" }

instance : Inhabited File := ⟨File.zero⟩

/-- `entities.Task`. -/
structure Task where
  id : String
  urls : List String
  status : TaskStatus
  createdAt : Int
  updatedAt : Int
  files : List File
  error : String
deriving DecidableEq, Repr

/-- `entities.NewTask`: a fresh task in status `new`, with one zero-valued
`File` per URL (`make([]File, len(urls))`). -/
def NewTask (id : String) (urls : List String) (now : Int) : Task :=
  { id := id
    urls := urls
    status := .new
    createdAt := now
    updatedAt := now
    files := urls.map (fun _ => File.zero)
    error := "" }

/-- `(*Task).UpdateStatus`: set the status and stamp the update time. -/
def Task.UpdateStatus (t : Task) (status : TaskStatus) (now : Int) : Task :=
  { t with status := status, updatedAt := now }

/-- `(*Task).SetError`: record the error message, force status `failed`,
stamp the update time. -/
def Task.SetError (t : Task) (err : String) (now : Int) : Task :=
  { t with error := err, status := .failed, updatedAt := now }

/-- `(*Task).IsCompleted`: false for an empty file list, otherwise true iff
no file has a status other than `"completed"`. -/
def Task.IsCompleted (t : Task) : Bool :=
  if t.files.length = 0 then false
  else t.files.all (fun file => file.status == "completed")

/-- `(*Task).IsFailed`: true iff some file has status `"failed"`. -/
def Task.IsFailed (t : Task) : Bool :=
  t.files.any (fun file => file.status == "failed")

/-- `(*Task).GetProgress`: 0 for an empty file list, otherwise
`completed * 100 / len(files)` in Go integer division (all values are
non-negative, so `Nat` division is exact to the source). -/
def Task.GetProgress (t : Task) : Nat :=
  if t.files.length = 0 then 0
  else t.files.countP (fun file => file.status == "completed") * 100 / t.files.length

/-- `usecases.(*TaskUsecase).CreateTask`, the pure part: validation, `NewTask`,
and the loop `task.Files[i] = File{URL: url, Status: "pending"}` (which
rewrites every entry of the length-`len(urls)` file slice, hence the `map`).
Repository `Create` calls are outside this function; the claims treated here
all assume they succeed. -/
def CreateTask (id : String) (urls : List String) (now : Int) : Except String Task :=
  if urls.length = 0 then .error "не предоставлены URL"
  else if urls.any (fun url => url == "") then .error "предоставлен пустой URL"
  else
    let task := NewTask id urls now
    .ok { task with
          files := urls.map (fun url =>
            { url := url, path := "", size := 0, status := "pending", error := "" }) }

/-- Update the element at position `i` of a list, identity when out of range
(used to embed the source's in-place writes `task.Files[i].Field = v`). -/
def updateNth (g : α → α) : Nat → List α → List α
  | _, [] => []
  | 0, x :: xs => g x :: xs
  | n + 1, x :: xs => x :: updateNth g n xs

@[simp] theorem length_updateNth (g : α → α) (i : Nat) (l : List α) :
    (updateNth g i l).length = l.length := by
  induction l generalizing i with
  | nil => cases i <;> rfl
  | cons x xs ih =>
    cases i with
    | zero => rfl
    | succ n => simp [updateNth, ih]

theorem getElem?_updateNth (g : α → α) (i j : Nat) (l : List α) :
    (updateNth g i l)[j]? = if j = i then (l[j]?).map g else l[j]? := by
  induction l generalizing i j with
  | nil => simp [updateNth]
  | cons x xs ih =>
    cases i with
    | zero =>
      cases j with
      | zero => simp [updateNth]
      | succ m => simp [updateNth]
    | succ n =>
      cases j with
      | zero => simp [updateNth]
      | succ m => simpa [updateNth, Nat.succ_inj] using ih n m

theorem updateNth_updateNth (g g' : α → α) (i : Nat) (l : List α) :
    updateNth g i (updateNth g' i l) = updateNth (fun x => g (g' x)) i l := by
  induction l generalizing i with
  | nil => cases i <;> rfl
  | cons x xs ih =>
    cases i with
    | zero => rfl
    | succ n => simp [updateNth, ih]

/-- Embedding of `task.Files[i].Field = v` style writes: rewrite the file at
index `i` (a no-op when `i` is out of range, which never occurs on the
source's code paths). -/
def Task.updateFileAt (t : Task) (i : Nat) (g : File → File) : Task :=
  { t with files := updateNth g i t.files }

/-- Go `strings.Trim(s, "\x22")`: strip every leading and trailing
double-quote character. -/
def trimQuote (s : String) : String :=
  String.mk (((s.data.dropWhile (fun c => c == '\"')).reverse.dropWhile
    (fun c => c == '\"')).reverse)

/-- If `sep` is a prefix of the character list, return the remainder. -/
def dropPrefixCh : List Char → List Char → Option (List Char)
  | [], rest => some rest
  | _ :: _, [] => none
  | p :: ps, c :: cs => if c = p then dropPrefixCh ps cs else none

/-- Split a character list around each non-overlapping leftmost instance of
`sep`, scanning left to right (the behaviour of Go `strings.Split` for a
non-empty separator).  `fuel` bounds the recursion; with
`fuel = input length + 1` and a non-empty separator it never runs out. -/
def splitOnList (sep : List Char) : Nat → List Char → List Char → List (List Char)
  | 0, _, acc => [acc.reverse]
  | _ + 1, [], acc => [acc.reverse]
  | fuel + 1, c :: cs, acc =>
    match dropPrefixCh sep (c :: cs) with
    | some rest => acc.reverse :: splitOnList sep fuel rest []
    | none => splitOnList sep fuel cs (c :: acc)

/-- Go `strings.Split(s, sep)` for the non-empty separators this code uses
(`"/"` and `"filename="`); the callers never pass an empty separator. -/
def stringsSplit (s sep : String) : List String :=
  if sep = "" then [s]
  else (splitOnList sep.data (s.data.length + 1) s.data []).map String.mk

/-- Go `strings.Contains(s, "?")` — a single-character needle, so membership
of the character suffices. -/
def containsQm (s : String) : Bool :=
  s.data.contains '?'

/-- The Content-Disposition branch of `getFileName`: split on
`"filename="`, take `parts[1]`, trim quotes; `none` when the header is
empty, has no `filename=` part, or the trimmed name is empty (the source
then falls through to the URL branch). -/
def headerFileName (contentDisposition : String) : Option String :=
  if contentDisposition ≠ "" then
    let parts := stringsSplit contentDisposition "filename="
    if parts.length > 1 then
      let filename := trimQuote (parts.getD 1 "")
      if filename ≠ "" then some filename else none
    else none
  else none

/-- `usecases.(*DownloadUsecase).getFileName`.  `nowUnix` stands for
`time.Now().Unix()`.  The split of the URL is never empty, so `getLastD`
is exactly the source's `parts[len(parts)-1]` under its `len(parts) > 0`
guard. -/
def getFileName (url contentDisposition : String) (nowUnix : Int) : String :=
  match headerFileName contentDisposition with
  | some filename => filename
  | none =>
    let parts := stringsSplit url "/"
    let filename := parts.getLastD ""
    if filename ≠ "" && !(containsQm filename) then filename
    else "file_" ++ toString nowUnix

/-- Outcome of a Go function returning `error` while mutating a task it
shares with its caller: `ok`/`err` carry the task as the caller now sees
it; `panic` models a run-time panic. -/
inductive GoOutcome (α : Type) where
  | ok (val : α)
  | err (msg : String) (val : α)
  | panic (msg : String)
deriving DecidableEq, Repr

/-- Answers of the I/O collaborators for one `DownloadFile` call. -/
structure DlEnv where
  /-- `http.NewRequestWithContext` error, if any. -/
  reqErr : Option String
  /-- `client.Do` (transport) error, if any. -/
  respErr : Option String
  /-- `resp.StatusCode`. -/
  statusCode : Nat
  /-- `resp.Status`, e.g. `"404 Not Found"`. -/
  statusText : String
  /-- `resp.Header.Get("Content-Disposition")`. -/
  contentDisposition : String
  /-- `os.Create` error, if any. -/
  createErr : Option String
  /-- `io.Copy` error, if any. -/
  copyErr : Option String
  /-- Bytes written by `io.Copy` on success. -/
  copyWritten : Int
  /-- `time.Now().Unix()` during this call. -/
  now : Int
deriving DecidableEq, Repr

/-- The usecase's configured download directory (`"./downloads"`).
`filepath.Join`'s path cleaning is not modelled; paths are plain
`/`-concatenations, which no claim depends on. -/
def downloadDir : String := "./downloads"

/-- `usecases.(*DownloadUsecase).DownloadFile`, after a successful
`taskRepo.GetByID` (the claims all concern an existing task; `task` is the
stored object).  The source checks only `fileIndex >= len(task.Files)`;
a negative `fileIndex` reaches `&task.Files[fileIndex]` and panics. -/
def DownloadFile (env : DlEnv) (task : Task) (url : String) (taskID : String)
    (fileIndex : Int) : GoOutcome Task :=
  if (task.files.length : Int) ≤ fileIndex then
    .err ("неверный индекс файла: " ++ toString fileIndex) task
  else if fileIndex < 0 then
    .panic "runtime error: index out of range"
  else
    let i := fileIndex.toNat
    let task := task.updateFileAt i (fun f => { f with status := "downloading" })
    match env.reqErr with
    | some e =>
      .err e (task.updateFileAt i (fun f =>
        { f with status := "failed", error := "не удалось создать запрос: " ++ e }))
    | none =>
    match env.respErr with
    | some e =>
      .err e (task.updateFileAt i (fun f =>
        { f with status := "failed", error := "не удалось скачать: " ++ e }))
    | none =>
    if env.statusCode ≠ 200 then
      let msg := "HTTP " ++ toString env.statusCode ++ ": " ++ env.statusText
      .err msg (task.updateFileAt i (fun f => { f with status := "failed", error := msg }))
    else
      let fileName := getFileName url env.contentDisposition env.now
      let filePath := downloadDir ++ "/" ++ taskID ++ "/" ++ fileName
      let task := task.updateFileAt i (fun f => { f with path := filePath })
      match env.createErr with
      | some e =>
        .err e (task.updateFileAt i (fun f =>
          { f with status := "failed", error := "не удалось создать файл: " ++ e }))
      | none =>
      match env.copyErr with
      | some e =>
        .err e (task.updateFileAt i (fun f =>
          { f with status := "failed", error := "не удалось записать файл: " ++ e }))
      | none =>
        .ok (task.updateFileAt i (fun f =>
          { f with size := env.copyWritten, status := "completed" }))

/-- Answers of the collaborators for one `ProcessTask` call. -/
structure ProcEnv where
  /-- Error returned by `updateTask` (both repositories behave the same on
  every call of this `ProcessTask` run), if any. -/
  updateErr : Option String
  /-- `os.MkdirAll` error for the task directory, if any. -/
  mkdirErr : Option String
  /-- The I/O environment seen by the `DownloadFile` call for file `i`. -/
  denv : Nat → DlEnv
  /-- `time.Now()` as read by the status updates. -/
  now : Int

/-- One iteration of `ProcessTask`'s download loop body, without the
per-file `updateTask`: call `DownloadFile` on `task.Files[i].URL`; on error
overwrite `task.Files[i]`'s status with `"failed"` and its error with the
returned error's text. -/
def loopBody (env : DlEnv) (taskID : String) (t : Task) (i : Nat) : GoOutcome Task :=
  match DownloadFile env t (t.files.getD i File.zero).url taskID (Int.ofNat i) with
  | .panic m => .panic m
  | .ok t' => .ok t'
  | .err msg t' =>
    .ok (t'.updateFileAt i (fun f => { f with status := "failed", error := msg }))

/-- `ProcessTask`'s `for i := range task.Files` loop over the index list:
after each file the task is re-persisted, and a persistence error aborts the
loop with a wrapped error. -/
def processLoop (denv : Nat → DlEnv) (updateErr : Option String) (taskID : String) :
    List Nat → Task → GoOutcome Task
  | [], t => .ok t
  | i :: rest, t =>
    match loopBody (denv i) taskID t i with
    | .panic m => .panic m
    | .err m t' => .err m t'
    | .ok t' =>
      match updateErr with
      | some e => .err ("не удалось обновить задачу: " ++ e) t'
      | none => processLoop denv updateErr taskID rest t'

/-- `usecases.(*DownloadUsecase).ProcessTask`: set status `processing` and
persist; create the task directory (on failure `SetError` + best-effort
persist, whose result the source discards, then return the error); download
every file in index order, persisting after each; finally recompute the
terminal status via `IsCompleted`/`IsFailed` and persist. -/
def ProcessTask (env : ProcEnv) (task : Task) : GoOutcome Task :=
  let task := task.UpdateStatus .processing env.now
  match env.updateErr with
  | some e => .err ("не удалось обновить статус задачи: " ++ e) task
  | none =>
  match env.mkdirErr with
  | some e =>
    let msg := "не удалось создать директорию для скачивания: " ++ e
    .err msg (task.SetError msg env.now)
  | none =>
  match processLoop env.denv env.updateErr task.id (List.range task.files.length) task with
  | .panic m => .panic m
  | .err m t' => .err m t'
  | .ok t' =>
    let t2 :=
      if t'.IsCompleted then t'.UpdateStatus .completed env.now
      else if t'.IsFailed then t'.UpdateStatus .failed env.now
      else t'
    match env.updateErr with
    | some e => .err e t2
    | none => .ok t2

/-- Capacity of `wp.taskQueue` (`make(chan *TaskJob, 100)`). -/
def queueCapacity : Nat := 100

/-- `infrastructure.WorkerPool`, restricted to the state `AddTask` reads:
the `running` flag, whether `wp.cancel()` has run (`ctxDone`), and the
buffered channel contents. -/
structure WorkerPool where
  running : Bool
  ctxDone : Bool
  taskQueue : List String
deriving DecidableEq, Repr

/-- The possible results of `AddTask`, one per `return` of the source. -/
inductive AddTaskResult where
  | ok
  /-- `"пул воркеров не запущен"` -/
  | errNotRunning
  /-- `"пул воркеров завершает работу"` -/
  | errShuttingDown
  /-- `"очередь задач переполнена"` -/
  | errQueueFull
deriving DecidableEq, Repr

/-- `NewWorkerPool`: not running, context live, empty queue. -/
def WorkerPool.NewWorkerPool : WorkerPool :=
  { running := false, ctxDone := false, taskQueue := [] }

/-- `(*WorkerPool).Start`: no-op when already running, else mark running.
The context is created once in `NewWorkerPool` and never recreated. -/
def WorkerPool.Start (wp : WorkerPool) : WorkerPool :=
  if wp.running then wp else { wp with running := true }

/-- `(*WorkerPool).Stop`: no-op when not running, else cancel the context
and mark not running. -/
def WorkerPool.Stop (wp : WorkerPool) : WorkerPool :=
  if !wp.running then wp else { wp with ctxDone := true, running := false }

/-- `(*WorkerPool).AddTask`.  The source's `select` has a send case, a
`ctx.Done()` case and a `default`.  When several cases are ready Go picks
one at random; that only happens when the pool is running with a cancelled
context (a stopped-then-restarted pool), a state outside every claim's
scope — the embedding breaks that tie in favour of the send.  In every
other state the `select` is deterministic and the embedding is exact:
queue shorter than capacity means the buffered send is ready, otherwise
the `ctx.Done()` case fires if cancelled, otherwise `default`. -/
def WorkerPool.AddTask (wp : WorkerPool) (taskID : String) :
    AddTaskResult × WorkerPool :=
  if !wp.running then (.errNotRunning, wp)
  else if wp.taskQueue.length < queueCapacity then
    (.ok, { wp with taskQueue := wp.taskQueue ++ [taskID] })
  else if wp.ctxDone then (.errShuttingDown, wp)
  else (.errQueueFull, wp)

/-! ### Specification-side helper predicates -/

/-- The data-model invariant `len(Files) == len(URLs)`. -/
def lenInv (t : Task) : Prop := t.files.length = t.urls.length

/-- Whether the I/O environment lets one `DownloadFile` call succeed: no
request or transport error, HTTP 200, and no file-create or write error. -/
def fetchSucceeds (env : DlEnv) : Bool :=
  env.reqErr.isNone && env.respErr.isNone && (env.statusCode == 200)
    && env.createErr.isNone && env.copyErr.isNone

/-- The error message `DownloadFile` returns when `fetchSucceeds env` is
false: the first failing step's message (`""` is never reached when some
step fails). -/
def dlErr (env : DlEnv) : String :=
  match env.reqErr with
  | some e => e
  | none =>
  match env.respErr with
  | some e => e
  | none =>
  if env.statusCode ≠ 200 then "HTTP " ++ toString env.statusCode ++ ": " ++ env.statusText
  else
  match env.createErr with
  | some e => e
  | none =>
  match env.copyErr with
  | some e => e
  | none => ""

/-- The file-level outcome `ProcessTask`'s loop establishes for a file whose
`DownloadFile` ran under `env`: completed on success, else failed with the
returned error text recorded. -/
def fileOutcomeOk (env : DlEnv) (f : File) : Prop :=
  if fetchSucceeds env then f.status = "completed"
  else f.status = "failed" ∧ f.error = dlErr env

/-- A predicate on the task carried by a `GoOutcome` (vacuous for a panic,
which carries no task). -/
def GoOutcome.preserves (o : GoOutcome Task) (P : Task → Prop) : Prop :=
  match o with
  | .ok t => P t
  | .err _ t => P t
  | .panic _ => True

/-- `t'` agrees with `t` on everything `ProcessTask`'s loop never touches:
file count, URLs, status, id, and top-level error. -/
def sameShape (t t' : Task) : Prop :=
  t'.files.length = t.files.length ∧ t'.urls = t.urls ∧ t'.status = t.status ∧
  t'.id = t.id ∧ t'.error = t.error

/-! ### Supporting lemmas -/

@[simp] theorem preserves_ok (t' : Task) (P : Task → Prop) :
    (GoOutcome.ok t').preserves P = P t' := rfl

@[simp] theorem preserves_err (m : String) (t' : Task) (P : Task → Prop) :
    (GoOutcome.err m t').preserves P = P t' := rfl

@[simp] theorem preserves_panic (m : String) (P : Task → Prop) :
    (GoOutcome.panic m).preserves P = True := rfl

@[simp] theorem files_updateFileAt (t : Task) (i : Nat) (g : File → File) :
    (t.updateFileAt i g).files = updateNth g i t.files := rfl

@[simp] theorem urls_updateFileAt (t : Task) (i : Nat) (g : File → File) :
    (t.updateFileAt i g).urls = t.urls := rfl

@[simp] theorem status_updateFileAt (t : Task) (i : Nat) (g : File → File) :
    (t.updateFileAt i g).status = t.status := rfl

@[simp] theorem id_updateFileAt (t : Task) (i : Nat) (g : File → File) :
    (t.updateFileAt i g).id = t.id := rfl

@[simp] theorem error_updateFileAt (t : Task) (i : Nat) (g : File → File) :
    (t.updateFileAt i g).error = t.error := rfl

theorem sameShape_rfl (t : Task) : sameShape t t := ⟨rfl, rfl, rfl, rfl, rfl⟩

theorem sameShape_trans {t t' t'' : Task} (h : sameShape t t') (h' : sameShape t' t'') :
    sameShape t t'' := by
  obtain ⟨a, b, c, d, e⟩ := h
  obtain ⟨a', b', c', d', e'⟩ := h'
  exact ⟨a'.trans a, b'.trans b, c'.trans c, d'.trans d, e'.trans e⟩

theorem sameShape_updateFileAt {t t' : Task} (h : sameShape t t') (i : Nat)
    (g : File → File) : sameShape t (t'.updateFileAt i g) := by
  obtain ⟨a, b, c, d, e⟩ := h
  exact ⟨by simpa using a, b, c, d, e⟩

/-- `DownloadFile` only rewrites file entries: the task's shape survives on
every branch. -/
theorem downloadFile_shape (env : DlEnv) (t : Task) (url tid : String) (idx : Int) :
    (DownloadFile env t url tid idx).preserves (sameShape t) := by
  unfold DownloadFile
  repeat' split
  all_goals
    simp only [preserves_ok, preserves_err, preserves_panic]
  all_goals
    first
    | trivial
    | exact sameShape_rfl t
    | (repeat' apply sameShape_updateFileAt)
  all_goals exact sameShape_rfl t

theorem getElem?_updateNth_ne (g : α → α) {i j : Nat} (h : j ≠ i) (l : List α) :
    (updateNth g i l)[j]? = l[j]? := by rw [getElem?_updateNth, if_neg h]

theorem getElem?_updateNth_self (g : α → α) (i : Nat) (l : List α) :
    (updateNth g i l)[i]? = (l[i]?).map g := by rw [getElem?_updateNth, if_pos rfl]

/-- One pass of `ProcessTask`'s loop body at an in-range index `i` always
returns normally (never an error, never a panic), keeps the task's shape,
leaves every other file untouched, and leaves file `i` completed or
failed-with-the-error-text according to the I/O environment. -/
theorem loopBody_spec (env : DlEnv) (tid : String) (t : Task) (i : Nat)
    (hi : i < t.files.length) :
    ∃ t2, loopBody env tid t i = .ok t2 ∧ sameShape t t2 ∧
      (∀ j, j ≠ i → t2.files[j]? = t.files[j]?) ∧
      ∃ f, t2.files[i]? = some f ∧ fileOutcomeOk env f := by
  have hle : ¬ ((t.files.length : Int) ≤ Int.ofNat i) := by
    rw [Int.ofNat_eq_natCast, not_le]
    exact_mod_cast hi
  have hneg : ¬ (Int.ofNat i < 0) := not_lt.mpr (Int.ofNat_nonneg i)
  have hfi : t.files[i]? = some (t.files.get ⟨i, hi⟩) := by
    simp [List.getElem?_eq_getElem hi]
  have f0 := t.files.get ⟨i, hi⟩
  unfold loopBody DownloadFile
  simp only [if_neg hle, if_neg hneg]
  cases hq : env.reqErr with
  | some e =>
    refine ⟨_, rfl, ?_, ?_,
      ⟨{ t.files.get ⟨i, hi⟩ with status := "failed", error := e }, ?_, ?_⟩⟩
    · exact sameShape_updateFileAt
        (sameShape_updateFileAt (sameShape_updateFileAt (sameShape_rfl t) _ _) _ _) _ _
    · intro j hj
      simp [Task.updateFileAt, getElem?_updateNth_ne _ hj]
    · simp [Task.updateFileAt, getElem?_updateNth_self, hfi]
    · simp [fileOutcomeOk, fetchSucceeds, dlErr, hq]
  | none =>
  cases hr : env.respErr with
  | some e =>
    refine ⟨_, rfl, ?_, ?_,
      ⟨{ t.files.get ⟨i, hi⟩ with status := "failed", error := e }, ?_, ?_⟩⟩
    · exact sameShape_updateFileAt
        (sameShape_updateFileAt (sameShape_updateFileAt (sameShape_rfl t) _ _) _ _) _ _
    · intro j hj
      simp [Task.updateFileAt, getElem?_updateNth_ne _ hj]
    · simp [Task.updateFileAt, getElem?_updateNth_self, hfi]
    · simp [fileOutcomeOk, fetchSucceeds, dlErr, hq, hr]
  | none =>
  by_cases hs : env.statusCode = 200
  · simp only [if_neg (show ¬ env.statusCode ≠ 200 by simpa using hs)]
    cases hc : env.createErr with
    | some e =>
      refine ⟨_, rfl, ?_, ?_,
        ⟨{ t.files.get ⟨i, hi⟩ with
            path := downloadDir ++ "/" ++ tid ++ "/" ++
              getFileName (t.files.getD i File.zero).url env.contentDisposition env.now,
            status := "failed", error := e }, ?_, ?_⟩⟩
      · exact sameShape_updateFileAt (sameShape_updateFileAt
          (sameShape_updateFileAt (sameShape_updateFileAt (sameShape_rfl t) _ _) _ _) _ _) _ _
      · intro j hj
        simp [Task.updateFileAt, getElem?_updateNth_ne _ hj]
      · simp [Task.updateFileAt, getElem?_updateNth_self, hfi]
      · simp [fileOutcomeOk, fetchSucceeds, dlErr, hq, hr, hs, hc]
    | none =>
    cases hw : env.copyErr with
    | some e =>
      refine ⟨_, rfl, ?_, ?_,
        ⟨{ t.files.get ⟨i, hi⟩ with
            path := downloadDir ++ "/" ++ tid ++ "/" ++
              getFileName (t.files.getD i File.zero).url env.contentDisposition env.now,
            status := "failed", error := e }, ?_, ?_⟩⟩
      · exact sameShape_updateFileAt (sameShape_updateFileAt
          (sameShape_updateFileAt (sameShape_updateFileAt (sameShape_rfl t) _ _) _ _) _ _) _ _
      · intro j hj
        simp [Task.updateFileAt, getElem?_updateNth_ne _ hj]
      · simp [Task.updateFileAt, getElem?_updateNth_self, hfi]
      · simp [fileOutcomeOk, fetchSucceeds, dlErr, hq, hr, hs, hc, hw]
    | none =>
      refine ⟨_, rfl, ?_, ?_,
        ⟨{ t.files.get ⟨i, hi⟩ with
            path := downloadDir ++ "/" ++ tid ++ "/" ++
              getFileName (t.files.getD i File.zero).url env.contentDisposition env.now,
            size := env.copyWritten, status := "completed" }, ?_, ?_⟩⟩
      · exact sameShape_updateFileAt
          (sameShape_updateFileAt (sameShape_updateFileAt (sameShape_rfl t) _ _) _ _) _ _
      · intro j hj
        simp [Task.updateFileAt, getElem?_updateNth_ne _ hj]
      · simp [Task.updateFileAt, getElem?_updateNth_self, hfi]
      · simp [fileOutcomeOk, fetchSucceeds, hq, hr, hs, hc, hw]
  · simp only [if_pos (show env.statusCode ≠ 200 from hs)]
    refine ⟨_, rfl, ?_, ?_,
      ⟨{ t.files.get ⟨i, hi⟩ with
          status := "failed"
          error := "HTTP " ++ toString env.statusCode ++ ": " ++ env.statusText }, ?_, ?_⟩⟩
    · exact sameShape_updateFileAt
        (sameShape_updateFileAt (sameShape_updateFileAt (sameShape_rfl t) _ _) _ _) _ _
    · intro j hj
      simp [Task.updateFileAt, getElem?_updateNth_ne _ hj]
    · simp [Task.updateFileAt, getElem?_updateNth_self, hfi]
    · simp [fileOutcomeOk, fetchSucceeds, dlErr, hq, hr, hs]

theorem preserves_mono {o : GoOutcome Task} {P Q : Task → Prop} (h : o.preserves P)
    (himp : ∀ t, P t → Q t) : o.preserves Q := by
  cases o with
  | ok t => exact himp t h
  | err m t => exact himp t h
  | panic m => trivial

/-- `loopBody` swallows `DownloadFile`'s error returns: it never produces an
`err` outcome of its own (the surrounding persistence step can). -/
theorem loopBody_notErrOutcome (env : DlEnv) (tid : String) (t : Task) (i : Nat)
    (m : String) (t' : Task) : loopBody env tid t i ≠ .err m t' := by
  unfold loopBody
  cases DownloadFile env t (t.files.getD i File.zero).url tid (Int.ofNat i) <;> simp

theorem loopBody_shape (env : DlEnv) (tid : String) (t : Task) (i : Nat) :
    (loopBody env tid t i).preserves (sameShape t) := by
  have hdf := downloadFile_shape env t (t.files.getD i File.zero).url tid (Int.ofNat i)
  unfold loopBody
  cases hc : DownloadFile env t (t.files.getD i File.zero).url tid (Int.ofNat i) with
  | ok t' =>
    rw [hc] at hdf
    simpa using hdf
  | err m t' =>
    rw [hc] at hdf
    simp only [preserves_err] at hdf
    simpa using sameShape_updateFileAt hdf i _
  | panic m => simp

/-- The download loop preserves the task's shape whatever the persistence
collaborator answers. -/
theorem processLoop_sameShape (denv : Nat → DlEnv) (ue : Option String) (tid : String) :
    ∀ (idxs : List Nat) (t : Task), (processLoop denv ue tid idxs t).preserves (sameShape t) := by
  intro idxs
  induction idxs with
  | nil =>
    intro t
    simpa [processLoop] using sameShape_rfl t
  | cons i rest ih =>
    intro t
    have hbs := loopBody_shape (denv i) tid t i
    unfold processLoop
    cases hb : loopBody (denv i) tid t i with
    | panic m => simp
    | err m t' => exact absurd hb (loopBody_notErrOutcome _ _ _ _ _ _)
    | ok t' =>
      rw [hb] at hbs
      simp only [preserves_ok] at hbs
      cases ue with
      | some e => simpa using hbs
      | none =>
        have := preserves_mono (ih t') (fun u hu => sameShape_trans hbs hu)
        simpa using this

/-- Full characterisation of the download loop over `range' a b` when every
persistence update succeeds: it returns normally, keeps the shape, leaves
files below `a` untouched, and gives every file in `[a, a+b)` its
per-environment outcome. -/
theorem processLoop_range (denv : Nat → DlEnv) (tid : String) :
    ∀ (b a : Nat) (t : Task), a + b ≤ t.files.length →
    ∃ t', processLoop denv none tid (List.range' a b) t = .ok t' ∧
      sameShape t t' ∧
      (∀ j, j < a → t'.files[j]? = t.files[j]?) ∧
      (∀ j, a ≤ j → j < a + b → ∃ f, t'.files[j]? = some f ∧ fileOutcomeOk (denv j) f) := by
  intro b
  induction b with
  | zero =>
    intro a t _
    exact ⟨t, by simp [processLoop], sameShape_rfl t, fun j _ => rfl,
      fun j h1 h2 => absurd (h1.trans_lt h2) (by omega)⟩
  | succ b ih =>
    intro a t h
    have hia : a < t.files.length := by omega
    obtain ⟨t2, hb, hsh, hoff, f, hf, hok⟩ := loopBody_spec (denv a) tid t a hia
    obtain ⟨t', hl, hsh', hlow, hmid⟩ := ih (a + 1) t2 (by
      have := hsh.1
      omega)
    refine ⟨t', ?_, sameShape_trans hsh hsh', ?_, ?_⟩
    · rw [List.range'_succ]
      unfold processLoop
      rw [hb]
      simpa using hl
    · intro j hj
      rw [hlow j (by omega), hoff j (by omega)]
    · intro j h1 h2
      rcases eq_or_lt_of_le h1 with rfl | hgt
      · exact ⟨f, by rw [hlow a (by omega), hf], hok⟩
      · exact hmid j (by omega) (by omega)

/-- `ProcessTask` with succeeding persistence and directory creation,
written as one outer case split on the loop's outcome. -/
theorem ProcessTask_benign (denv : Nat → DlEnv) (now : Int) (t : Task) :
    ProcessTask { updateErr := none, mkdirErr := none, denv := denv, now := now } t =
      match processLoop denv none t.id (List.range t.files.length)
          (t.UpdateStatus .processing now) with
      | .panic m => .panic m
      | .err m t' => .err m t'
      | .ok t' =>
        .ok (if t'.IsCompleted then t'.UpdateStatus .completed now
             else if t'.IsFailed then t'.UpdateStatus .failed now else t') := rfl

/-! ### Concrete inputs used by witnesses and counterexamples -/

/-- A benign I/O environment: every collaborator succeeds, HTTP 200. -/
def okEnv : DlEnv :=
  { reqErr := none, respErr := none, statusCode := 200, statusText := "200 OK",
    contentDisposition := "", createErr := none, copyErr := none,
    copyWritten := 42, now := 7 }

/-- The two-URL task `CreateTask "tid" ["https://x/a.jpg", "https://x/b.pdf"] 0`
produces: status `new`, both files `pending`. -/
def sampleTask : Task :=
  { id := "tid"
    urls := ["https://x/a.jpg", "https://x/b.pdf"]
    status := .new
    createdAt := 0
    updatedAt := 0
    files := [
      { url := "https://x/a.jpg", path := "", size := 0, status := "pending", error := "" },
      { url := "https://x/b.pdf", path := "", size := 0, status := "pending", error := "" }]
    error := "" }

theorem sampleTask_eq_CreateTask :
    CreateTask "tid" ["https://x/a.jpg", "https://x/b.pdf"] 0 = .ok sampleTask := rfl

/-! ### Claim theorems -/

/-- C4: for every task `t`, `GetProgress t` equals
`floor(completedFileCount * 100 / totalFileCount)` (as a rational floor),
where `completedFileCount` counts the files with status `"completed"`, and
equals `0` when the task has no files. -/
theorem GetProgress_floor_formula (t : Task) :
    t.GetProgress =
      Nat.floor ((t.files.countP (fun f => f.status == "completed") * 100 : ℚ) /
        (t.files.length : ℚ)) ∧
    (t.files.length = 0 → t.GetProgress = 0) := by
  constructor
  · unfold Task.GetProgress
    by_cases h : t.files.length = 0
    · simp [h]
    · rw [if_neg h]
      rw [show ((t.files.countP (fun f => f.status == "completed") * 100 : ℚ)) =
        ((t.files.countP (fun f => f.status == "completed") * 100 : ℕ) : ℚ) by push_cast; ring]
      rw [Nat.floor_div_nat, Nat.floor_natCast]
  · intro h
    simp [Task.GetProgress, h]

/-- C4 witness: a task with no files reports progress 0. -/
theorem GetProgress_floor_formula_witness : (NewTask "e" [] 0).GetProgress = 0 :=
  (GetProgress_floor_formula (NewTask "e" [] 0)).2 rfl

/-- C5: `IsCompleted t` is true iff the file list is non-empty and every
file's status is `"completed"`; in particular a task with zero files is
never completed. -/
theorem IsCompleted_iff (t : Task) :
    (t.IsCompleted = true ↔ t.files ≠ [] ∧ ∀ f ∈ t.files, f.status = "completed") ∧
    (t.files = [] → t.IsCompleted = false) := by
  constructor
  · constructor
    · intro hcompl
      unfold Task.IsCompleted at hcompl
      by_cases h : t.files.length = 0
      · rw [if_pos h] at hcompl
        exact absurd hcompl (by simp)
      · rw [if_neg h, List.all_eq_true] at hcompl
        refine ⟨fun he => h (by simp [he]), fun f hf => by simpa using hcompl f hf⟩
    · rintro ⟨hne, hall⟩
      unfold Task.IsCompleted
      rw [if_neg (fun h0 => hne (List.length_eq_zero.mp h0)), List.all_eq_true]
      intro f hf
      simpa using hall f hf
  · intro h
    simp [Task.IsCompleted, h]

/-- C5 witness: the zero-file task is not completed. -/
theorem IsCompleted_iff_witness : (NewTask "e" [] 0).IsCompleted = false :=
  (IsCompleted_iff (NewTask "e" [] 0)).2 rfl

/-- C2 counterexample: calling `DownloadFile` with the negative index `-1`
on an existing two-file task panics (the source checks only
`fileIndex >= len(task.Files)`, so `&task.Files[-1]` is reached), refuting
"returns an out-of-range error without panicking" for `fileIndex < 0`. -/
theorem DownloadFile_negative_index_panics :
    DownloadFile okEnv sampleTask "https://x/a.jpg" "tid" (-1) =
      .panic "runtime error: index out of range" := rfl

/-- C2 amended: for every call on an existing task whose `fileIndex` is at
least `len(Files)`, `DownloadFile` returns the out-of-range error without
panicking and without modifying any file (the task is returned untouched);
the lower bound is not validated. -/
theorem DownloadFile_index_guard (env : DlEnv) (t : Task) (url tid : String) (idx : Int)
    (h : (t.files.length : Int) ≤ idx) :
    DownloadFile env t url tid idx =
      .err ("неверный индекс файла: " ++ toString idx) t := by
  unfold DownloadFile
  rw [if_pos h]

/-- C2 witness: index 5 on the two-file task returns the out-of-range error
with the task unmodified. -/
theorem DownloadFile_index_guard_witness :
    ((sampleTask.files.length : Int) ≤ 5) ∧
    DownloadFile okEnv sampleTask "https://x/a.jpg" "tid" 5 =
      .err ("неверный индекс файла: " ++ toString (5 : Int)) sampleTask :=
  ⟨by decide, DownloadFile_index_guard okEnv sampleTask "https://x/a.jpg" "tid" 5 (by decide)⟩

/-- C8: when the task directory cannot be created, `ProcessTask` returns the
directory error immediately, with the task marked `failed`, the directory
error recorded as the task's error message, and every file untouched (no
download is attempted). -/
theorem ProcessTask_mkdir_failure (t : Task) (denv : Nat → DlEnv) (now : Int) (e : String) :
    ∃ tf, ProcessTask { updateErr := none, mkdirErr := some e, denv := denv, now := now } t =
        .err ("не удалось создать директорию для скачивания: " ++ e) tf ∧
      tf.status = .failed ∧
      tf.error = "не удалось создать директорию для скачивания: " ++ e ∧
      tf.files = t.files :=
  ⟨(t.UpdateStatus .processing now).SetError
      ("не удалось создать директорию для скачивания: " ++ e) now,
    rfl, rfl, rfl, rfl⟩

/-- C10: on a task with no files (and succeeding persistence), `ProcessTask`
sets status `processing`, attempts nothing (the loop range is empty), and
returns with the status still `processing` — neither `IsCompleted` nor
`IsFailed` holds for an empty file list, so no terminal status is reached. -/
theorem ProcessTask_empty_files_stays_processing (t : Task) (denv : Nat → DlEnv)
    (now : Int) (h : t.files = []) :
    ProcessTask { updateErr := none, mkdirErr := none, denv := denv, now := now } t =
      .ok (t.UpdateStatus .processing now) ∧
    (t.UpdateStatus .processing now).status = .processing ∧
    (t.UpdateStatus .processing now).IsCompleted = false ∧
    (t.UpdateStatus .processing now).IsFailed = false := by
  have hc : (t.UpdateStatus .processing now).IsCompleted = false := by
    simp [Task.IsCompleted, Task.UpdateStatus, h]
  have hfl : (t.UpdateStatus .processing now).IsFailed = false := by
    simp [Task.IsFailed, Task.UpdateStatus, h]
  refine ⟨?_, rfl, hc, hfl⟩
  rw [ProcessTask_benign]
  rw [show t.files.length = 0 by simp [h]]
  simp [processLoop, hc, hfl]

/-- C10 witness: the concrete zero-file task stays in `processing`. -/
theorem ProcessTask_empty_files_stays_processing_witness :
    ProcessTask { updateErr := none, mkdirErr := none, denv := fun _ => okEnv, now := 3 }
        (NewTask "e" [] 0) =
      .ok ((NewTask "e" [] 0).UpdateStatus .processing 3) ∧
    ((NewTask "e" [] 0).UpdateStatus .processing 3).status = .processing ∧
    ((NewTask "e" [] 0).UpdateStatus .processing 3).IsCompleted = false ∧
    ((NewTask "e" [] 0).UpdateStatus .processing 3).IsFailed = false :=
  ProcessTask_empty_files_stays_processing (NewTask "e" [] 0) (fun _ => okEnv) 3 rfl

/-- C9: `getFileName` returns the filename extracted from the
Content-Disposition-style header when one is present; otherwise the URL's
last `/`-separated segment when that segment is non-empty and query-free;
otherwise the generated fallback name derived from the current time. -/
theorem getFileName_spec (url cd : String) (now : Int) :
    (∀ name, headerFileName cd = some name → getFileName url cd now = name) ∧
    (headerFileName cd = none →
      (stringsSplit url "/").getLastD "" ≠ "" →
      containsQm ((stringsSplit url "/").getLastD "") = false →
      getFileName url cd now = (stringsSplit url "/").getLastD "") ∧
    (headerFileName cd = none →
      ((stringsSplit url "/").getLastD "" = "" ∨
        containsQm ((stringsSplit url "/").getLastD "") = true) →
      getFileName url cd now = "file_" ++ toString now) := by
  refine ⟨?_, ?_, ?_⟩
  · intro name h
    simp [getFileName, h]
  · intro h h1 h2
    rw [List.getLastD_eq_getLast?] at h1 h2
    simp [getFileName, h, h1, h2, List.getLastD_eq_getLast?]
  · intro h hor
    rcases hor with h1 | h2
    · rw [List.getLastD_eq_getLast?] at h1
      simp [getFileName, h, h1, List.getLastD_eq_getLast?]
    · rw [List.getLastD_eq_getLast?] at h2
      simp [getFileName, h, h2, List.getLastD_eq_getLast?]

/-- C9 witness: header wins when present; else the URL's last segment; else
the time-derived fallback. -/
theorem getFileName_spec_witness :
    getFileName "https://x/a.jpg" "attachment; filename=\"b.txt\"" 5 = "b.txt" ∧
    getFileName "https://x/a.jpg" "" 5 = "a.jpg" ∧
    getFileName "https://x/a.jpg?v=1" "" 5 = "file_5" :=
  ⟨(getFileName_spec "https://x/a.jpg" "attachment; filename=\"b.txt\"" 5).1 "b.txt"
      (by decide),
    (getFileName_spec "https://x/a.jpg" "" 5).2.1 (by decide) (by decide) (by decide),
    (getFileName_spec "https://x/a.jpg?v=1" "" 5).2.2 (by decide) (Or.inr (by decide))⟩

/-- C7: `AddTask` never blocks (it is a total function into the three
outcomes): it fails with the not-running error whenever the pool is not
running; while running (single start/stop lifecycle, so the pool's context
is not cancelled) it fails fast with the queue-full error exactly when the
shared queue holds `queueCapacity = 100` entries, and otherwise appends the
task id to the queue and succeeds. -/
theorem AddTask_spec (wp : WorkerPool) (tid : String)
    (hlife : wp.running = true → wp.ctxDone = false) :
    (wp.running = false → wp.AddTask tid = (.errNotRunning, wp)) ∧
    (wp.running = true → queueCapacity ≤ wp.taskQueue.length →
      wp.AddTask tid = (.errQueueFull, wp)) ∧
    (wp.running = true → wp.taskQueue.length < queueCapacity →
      wp.AddTask tid = (.ok, { wp with taskQueue := wp.taskQueue ++ [tid] })) ∧
    ((wp.AddTask tid).1 = .ok ↔
      wp.running = true ∧ wp.taskQueue.length < queueCapacity) := by
  refine ⟨?_, ?_, ?_, ?_⟩
  · intro h
    simp [WorkerPool.AddTask, h]
  · intro h hq
    simp [WorkerPool.AddTask, h, hlife h, not_lt.mpr hq]
  · intro h hq
    simp [WorkerPool.AddTask, h, hq]
  · constructor
    · intro h
      by_cases hr : wp.running = true
      · by_cases hq : wp.taskQueue.length < queueCapacity
        · exact ⟨hr, hq⟩
        · simp [WorkerPool.AddTask, hr, hq, hlife hr] at h
      · simp [WorkerPool.AddTask, Bool.eq_false_iff.mpr hr] at h
    · rintro ⟨hr, hq⟩
      simp [WorkerPool.AddTask, hr, hq]

/-- C7 witness: a freshly started pool accepts a job; the same pool before
start refuses it; a saturated running pool fails fast. -/
theorem AddTask_spec_witness :
    WorkerPool.NewWorkerPool.AddTask "j" = (.errNotRunning, WorkerPool.NewWorkerPool) ∧
    WorkerPool.NewWorkerPool.Start.AddTask "j" =
      (.ok, { WorkerPool.NewWorkerPool.Start with
              taskQueue := WorkerPool.NewWorkerPool.Start.taskQueue ++ ["j"] }) ∧
    ({ running := true, ctxDone := false,
       taskQueue := List.replicate 100 "x" } : WorkerPool).AddTask "j" =
      (.errQueueFull, { running := true, ctxDone := false,
                        taskQueue := List.replicate 100 "x" }) :=
  ⟨(AddTask_spec WorkerPool.NewWorkerPool "j" (by intro h; exact rfl)).1 rfl,
    (AddTask_spec WorkerPool.NewWorkerPool.Start "j" (fun _ => rfl)).2.2.1 rfl (by decide),
    (AddTask_spec { running := true, ctxDone := false, taskQueue := List.replicate 100 "x" }
      "j" (fun _ => rfl)).2.1 rfl (by decide)⟩

/-- C1 counterexample: a 201 response — squarely in the 2xx class — is
classified as a failure by `DownloadFile` (file marked `"failed"` with the
status text as its error, and the error returned), refuting "for every 2xx
response the download proceeds and is not classified as failure". -/
theorem DownloadFile_status201_classified_failed :
    DownloadFile { okEnv with statusCode := 201, statusText := "201 Created" }
        sampleTask "https://x/a.jpg" "tid" 0 =
      .err "HTTP 201: 201 Created"
        { sampleTask with files := [
            { url := "https://x/a.jpg", path := "", size := 0, status := "failed",
              error := "HTTP 201: 201 Created" },
            { url := "https://x/b.pdf", path := "", size := 0, status := "pending",
              error := "" }] } := by
  decide

/-- C1 amended: with the request and transport succeeding and an in-range
index, `DownloadFile` classifies the response as a failure — file marked
`"failed"` with the status text captured as its error, and that error
returned — iff the status code is not exactly 200 (`http.StatusOK`), not
"not in the 2xx class"; a 200 response proceeds (and, absent later
filesystem errors, the file completes with the byte count recorded). -/
theorem DownloadFile_status_classification (env : DlEnv) (t : Task) (url tid : String)
    (i : Nat) (hi : i < t.files.length)
    (hreq : env.reqErr = none) (hresp : env.respErr = none) :
    (env.statusCode ≠ 200 →
      ∃ tf, DownloadFile env t url tid (Int.ofNat i) =
          .err ("HTTP " ++ toString env.statusCode ++ ": " ++ env.statusText) tf ∧
        ∃ f, tf.files[i]? = some f ∧ f.status = "failed" ∧
          f.error = "HTTP " ++ toString env.statusCode ++ ": " ++ env.statusText) ∧
    (env.statusCode = 200 → env.createErr = none → env.copyErr = none →
      ∃ tf, DownloadFile env t url tid (Int.ofNat i) = .ok tf ∧
        ∃ f, tf.files[i]? = some f ∧ f.status = "completed" ∧
          f.size = env.copyWritten) := by
  have hle : ¬ ((t.files.length : Int) ≤ Int.ofNat i) := by
    rw [Int.ofNat_eq_natCast, not_le]
    exact_mod_cast hi
  have hneg : ¬ (Int.ofNat i < 0) := not_lt.mpr (Int.ofNat_nonneg i)
  have hfi : t.files[i]? = some (t.files.get ⟨i, hi⟩) := by
    simp [List.getElem?_eq_getElem hi]
  constructor
  · intro hs
    unfold DownloadFile
    simp only [if_neg hle, if_neg hneg, hreq, hresp, if_pos hs]
    refine ⟨_, rfl,
      { t.files.get ⟨i, hi⟩ with
          status := "failed"
          error := "HTTP " ++ toString env.statusCode ++ ": " ++ env.statusText },
      ?_, rfl, rfl⟩
    simp [Task.updateFileAt, getElem?_updateNth_self, hfi]
  · intro hs hc hw
    unfold DownloadFile
    simp only [if_neg hle, if_neg hneg, hreq, hresp,
      if_neg (show ¬ env.statusCode ≠ 200 by simpa using hs), hc, hw]
    refine ⟨_, rfl,
      { t.files.get ⟨i, hi⟩ with
          path := downloadDir ++ "/" ++ tid ++ "/" ++
            getFileName url env.contentDisposition env.now
          size := env.copyWritten
          status := "completed" },
      ?_, rfl, rfl⟩
    simp [Task.updateFileAt, getElem?_updateNth_self, hfi]

/-- C1 witness: a 404 response on the two-file task yields the failure
classification with `"HTTP 404: 404 Not Found"` as the file's error. -/
theorem DownloadFile_status_classification_witness :
    ∃ tf, DownloadFile { okEnv with statusCode := 404, statusText := "404 Not Found" }
          sampleTask "https://x/a.jpg" "tid" (Int.ofNat 0) =
        .err "HTTP 404: 404 Not Found" tf ∧
      ∃ f, tf.files[0]? = some f ∧ f.status = "failed" ∧
        f.error = "HTTP 404: 404 Not Found" :=
  (DownloadFile_status_classification
    { okEnv with statusCode := 404, statusText := "404 Not Found" }
    sampleTask "https://x/a.jpg" "tid" 0 (by decide) rfl rfl).1 (by decide)

/-- `ProcessTask` with all collaborator answers explicit, one branch per
`return` of the source (pure restatement, proved by reflexivity). -/
theorem ProcessTask_eq (env : ProcEnv) (t : Task) :
    ProcessTask env t =
      match env.updateErr with
      | some e => .err ("не удалось обновить статус задачи: " ++ e)
          (t.UpdateStatus .processing env.now)
      | none =>
        match env.mkdirErr with
        | some e =>
          .err ("не удалось создать директорию для скачивания: " ++ e)
            ((t.UpdateStatus .processing env.now).SetError
              ("не удалось создать директорию для скачивания: " ++ e) env.now)
        | none =>
          match processLoop env.denv env.updateErr (t.UpdateStatus .processing env.now).id
              (List.range (t.UpdateStatus .processing env.now).files.length)
              (t.UpdateStatus .processing env.now) with
          | .panic m => .panic m
          | .err m t' => .err m t'
          | .ok t' =>
            match env.updateErr with
            | some e => .err e (if t'.IsCompleted then t'.UpdateStatus .completed env.now
                else if t'.IsFailed then t'.UpdateStatus .failed env.now else t')
            | none => .ok (if t'.IsCompleted then t'.UpdateStatus .completed env.now
                else if t'.IsFailed then t'.UpdateStatus .failed env.now else t') := rfl

/-- `ProcessTask` never adds or removes a file record and never touches the
URL list, whatever the collaborators answer. -/
theorem processTask_shape (env : ProcEnv) (t : Task) :
    (ProcessTask env t).preserves
      (fun u => u.files.length = t.files.length ∧ u.urls = t.urls) := by
  rw [ProcessTask_eq]
  cases hu : env.updateErr with
  | some e => exact ⟨rfl, rfl⟩
  | none =>
    cases hm : env.mkdirErr with
    | some e => exact ⟨rfl, rfl⟩
    | none =>
      have H := processLoop_sameShape env.denv none
        (t.UpdateStatus .processing env.now).id
        (List.range (t.UpdateStatus .processing env.now).files.length)
        (t.UpdateStatus .processing env.now)
      cases hpl : processLoop env.denv none (t.UpdateStatus .processing env.now).id
          (List.range (t.UpdateStatus .processing env.now).files.length)
          (t.UpdateStatus .processing env.now) with
      | panic m => simp
      | err m t' =>
        rw [hpl] at H
        simp only [preserves_err] at H
        exact ⟨H.1, H.2.1⟩
      | ok t' =>
        rw [hpl] at H
        simp only [preserves_ok] at H
        simp only [preserves_ok]
        split
        · exact ⟨H.1, H.2.1⟩
        · split
          · exact ⟨H.1, H.2.1⟩
          · exact ⟨H.1, H.2.1⟩

/-- C6: `len(Files) = len(URLs)` holds right after `NewTask` and after a
successful `CreateTask`, and is preserved by `UpdateStatus`, `SetError`,
`DownloadFile` and `ProcessTask` — no core operation adds or removes a
file record. -/
theorem files_urls_length_invariant :
    (∀ id urls now, lenInv (NewTask id urls now)) ∧
    (∀ id urls now t, CreateTask id urls now = .ok t → lenInv t) ∧
    (∀ t s now, lenInv t → lenInv (Task.UpdateStatus t s now)) ∧
    (∀ t e now, lenInv t → lenInv (Task.SetError t e now)) ∧
    (∀ env t url tid idx, lenInv t → (DownloadFile env t url tid idx).preserves lenInv) ∧
    (∀ env t, lenInv t → (ProcessTask env t).preserves lenInv) := by
  refine ⟨?_, ?_, ?_, ?_, ?_, ?_⟩
  · intro id urls now
    simp [lenInv, NewTask]
  · intro id urls now t h
    unfold CreateTask at h
    split at h
    · exact absurd h (by simp)
    · split at h
      · exact absurd h (by simp)
      · rw [Except.ok.injEq] at h
        subst h
        simp [lenInv, NewTask]
  · intro t s now h
    exact h
  · intro t e now h
    exact h
  · intro env t url tid idx h
    refine preserves_mono (downloadFile_shape env t url tid idx) ?_
    intro u hu
    unfold lenInv
    rw [hu.1, hu.2.1]
    exact h
  · intro env t h
    refine preserves_mono (processTask_shape env t) ?_
    intro u hu
    unfold lenInv
    rw [hu.1, hu.2]
    exact h

/-- C6 witness: the invariant holds for a concrete one-URL task after
creation and after a status update. -/
theorem files_urls_length_invariant_witness :
    lenInv (NewTask "w" ["https://x/a.jpg"] 0) ∧
    lenInv (Task.UpdateStatus (NewTask "w" ["https://x/a.jpg"] 0) .processing 1) ∧
    lenInv sampleTask :=
  ⟨files_urls_length_invariant.1 "w" ["https://x/a.jpg"] 0,
    files_urls_length_invariant.2.2.1 (NewTask "w" ["https://x/a.jpg"] 0) .processing 1
      (files_urls_length_invariant.1 "w" ["https://x/a.jpg"] 0),
    files_urls_length_invariant.2.1 "tid" ["https://x/a.jpg", "https://x/b.pdf"] 0
      sampleTask sampleTask_eq_CreateTask⟩

/-- C3 counterexample: on a task with zero files (persistence succeeding
throughout), every file "succeeded" vacuously, yet `ProcessTask` leaves the
final status at `processing`, not `completed` — the claim's final-status
clause fails for the empty file list. -/
theorem ProcessTask_empty_not_completed :
    ProcessTask { updateErr := none, mkdirErr := none, denv := fun _ => okEnv, now := 3 }
        (NewTask "z" [] 0) =
      .ok ((NewTask "z" [] 0).UpdateStatus .processing 3) ∧
    ((NewTask "z" [] 0).UpdateStatus .processing 3).status ≠ TaskStatus.completed := by
  constructor
  · decide
  · decide

/-- C3 amended: for every task **with at least one file** whose persistence
updates succeed, `ProcessTask` attempts every file in index (URL) order even
when earlier fetches fail — each file ends `"completed"` when its fetch
succeeds and `"failed"` with the returned error text when it fails — and the
persisted final status is `completed` when all files succeeded and `failed`
when any file failed. -/
theorem ProcessTask_attempts_all_and_final_status (t : Task) (denv : Nat → DlEnv)
    (now : Int) (hne : t.files ≠ []) :
    ∃ tf, ProcessTask { updateErr := none, mkdirErr := none, denv := denv, now := now } t =
        .ok tf ∧
      tf.files.length = t.files.length ∧
      (∀ i, i < t.files.length → ∃ f, tf.files[i]? = some f ∧ fileOutcomeOk (denv i) f) ∧
      ((∀ i, i < t.files.length → fetchSucceeds (denv i) = true) → tf.status = .completed) ∧
      ((∃ i, i < t.files.length ∧ fetchSucceeds (denv i) = false) → tf.status = .failed) := by
  obtain ⟨t', hl, hsh, _hlow, hmid⟩ :=
    processLoop_range denv t.id t.files.length 0 (t.UpdateStatus .processing now)
      (by simp [Task.UpdateStatus])
  have hmid' : ∀ i, i < t.files.length →
      ∃ f, t'.files[i]? = some f ∧ fileOutcomeOk (denv i) f := by
    intro i hi
    exact hmid i (Nat.zero_le i) (by simpa using hi)
  have hlen' : t'.files.length = t.files.length := hsh.1
  rw [ProcessTask_benign, List.range_eq_range', hl]
  by_cases hall : ∀ i, i < t.files.length → fetchSucceeds (denv i) = true
  · have hcomp : t'.IsCompleted = true := by
      unfold Task.IsCompleted
      rw [if_neg (by rw [hlen']; simpa [List.length_eq_zero] using hne), List.all_eq_true]
      intro f hf
      obtain ⟨i, hfi⟩ := List.mem_iff_getElem?.mp hf
      have hilt : i < t.files.length := by
        rw [← hlen']
        exact (List.getElem?_eq_some.mp hfi).1
      obtain ⟨f', hf', hofk⟩ := hmid' i hilt
      rw [hfi] at hf'
      cases hf'
      rw [fileOutcomeOk, if_pos (hall i hilt)] at hofk
      simp [hofk]
    refine ⟨t'.UpdateStatus .completed now, by simp [hcomp], by simpa using hlen',
      ?_, fun _ => rfl, ?_⟩
    · intro i hi
      simpa [Task.UpdateStatus] using hmid' i hi
    · rintro ⟨i, hi, hfail⟩
      have := hall i hi
      rw [hfail] at this
      exact absurd this (by simp)
  · push_neg at hall
    obtain ⟨i, hi, hfail⟩ := hall
    have hfail' : fetchSucceeds (denv i) = false := by
      simpa using hfail
    obtain ⟨f, hfi', hofk⟩ := hmid' i hi
    have hfstat : f.status = "failed" := by
      rw [fileOutcomeOk, if_neg (by simp [hfail'])] at hofk
      exact hofk.1
    have hmem : f ∈ t'.files := List.getElem?_mem hfi'
    have hcomp : t'.IsCompleted = false := by
      unfold Task.IsCompleted
      split
      · rfl
      · rw [Bool.eq_false_iff]
        intro hallc
        have := List.all_eq_true.mp hallc f hmem
        rw [hfstat] at this
        exact absurd this (by simp)
    have hflag : t'.IsFailed = true := by
      unfold Task.IsFailed
      rw [List.any_eq_true]
      exact ⟨f, hmem, by simp [hfstat]⟩
    refine ⟨t'.UpdateStatus .failed now, by simp [hcomp, hflag], by simpa using hlen',
      ?_, ?_, fun _ => rfl⟩
    · intro j hj
      simpa [Task.UpdateStatus] using hmid' j hj
    · intro hallsucc
      have := hallsucc i hi
      rw [hfail'] at this
      exact absurd this (by simp)

/-- C3 witness: on the concrete two-file task with every fetch succeeding,
`ProcessTask` completes the task. -/
theorem ProcessTask_attempts_all_and_final_status_witness :
    ∃ tf, ProcessTask { updateErr := none, mkdirErr := none, denv := fun _ => okEnv, now := 3 }
        sampleTask = .ok tf ∧ tf.status = .completed := by
  obtain ⟨tf, h1, _, _, h4, _⟩ :=
    ProcessTask_attempts_all_and_final_status sampleTask (fun _ => okEnv) 3 (by decide)
  exact ⟨tf, h1, h4 (fun i _ => by decide)⟩

end FileDownloader
